import Mathlib

/-!
Verification of the go-firmata client (rakyll/firmata): a shallow embedding of
the protocol engine (frame reader, sysex decoder, 7-bit codec, pin-control
operations, connect retry loop) with theorems settling the specification's
claims about it.

Bytes are modelled as `Nat` values below 256; Go byte arithmetic that can
overflow is written with explicit masks.  Fallible operations return an
explicit outcome (ok / error / runtime panic), and each pin-control operation
also reports the exact bytes it wrote to the transport, so that "no partial
send" properties are statements about the embedding, not prose.
-/

namespace Firmata

/-! ### Command constants

The repository's constants file is not among the given sources; only
`client.go`, `reply.go` and an example are.  The command byte values are
therefore modelled from the spec (§6 wire format: report-version `0xF9`,
system-reset `0xFF`, sysex framing `0xF0`/`0xF7`) and the standard Firmata
assignments for the remaining named commands used by `client.go` and
`reply.go`. -/

/-- Modelled from the spec: digital-message family selector (high nibble `0x9`). -/
def DigitalMessage : Nat := 0x90

/-- Modelled from the spec: analog-message family selector (high nibble `0xE`). -/
def AnalogMessage : Nat := 0xE0

/-- Modelled from the spec: report-version command byte (`[0xF9, major, minor]`). -/
def ReportVersion : Nat := 0xF9

/-- Modelled from the spec: start-sysex framing byte. -/
def StartSysEx : Nat := 0xF0

/-- Modelled from the spec: end-sysex sentinel byte. -/
def EndSysEx : Nat := 0xF7

/-- Modelled from the spec: system-reset command byte. -/
def SystemReset : Nat := 0xFF

/-- Modelled from the spec: set-pin-mode command byte (standard Firmata `0xF4`). -/
def SetPinModeCmd : Nat := 0xF4

/-- Modelled from the spec: enable-digital-input (report-digital) family byte. -/
def EnableDigitalInputCmd : Nat := 0xD0

/-- Modelled from the spec: enable-analog-input (report-analog) family byte. -/
def EnableAnalogInputCmd : Nat := 0xC0

/-- Modelled from the spec: capability-response sysex sub-command. -/
def CapabilityResponse : Nat := 0x6C

/-- Modelled from the spec: analog-mapping-response sysex sub-command. -/
def AnalogMappingResponse : Nat := 0x6A

/-- Modelled from the spec: firmware-name-response sysex sub-command. -/
def FirmwareQueryResponse : Nat := 0x79

/-! ### Bit-packing codec (§4.1)

`to7Bit` / `from7Bit` are referenced by `client.go` and `reply.go` but their
defining file is not among the given sources; they are modelled from the
spec's `encode14` / `decode14`. -/

/-- Modelled from the spec: `encode14(value) -> (lsb7, msb7)` with
`lsb7 = value & 0x7F`, `msb7 = value >> 7`; the source's `to7Bit` returning
the two-byte slice `[b & 0x7F, b >> 7]`. -/
def to7Bit (b : Nat) : List Nat :=
  [b &&& 0x7F, (b >>> 7) &&& 0x7F]

/-- Modelled from the spec: `decode14(lsb7, msb7) = lsb7 | (msb7 << 7)`; the
source's `from7Bit`. -/
def from7Bit (b0 b1 : Nat) : Nat :=
  b0 ||| (b1 <<< 7)

/-! ### Decoded values (`reply.go`) -/

/-- `FirmataValue` from `reply.go`: the originating command byte, the decoded
14-bit value, and the analog channel→pin mapping captured at decode time
(a Go `map[byte]int`, modelled as a total function with the map's zero
default). -/
structure FirmataValue where
  valueType : Nat
  value : Nat
  analogChannelPinsMap : Nat → Nat

/-- `IsAnalog` from `reply.go`: `(valueType & 0xF0) == AnalogMessage`. -/
def FirmataValue.IsAnalog (v : FirmataValue) : Bool :=
  (v.valueType &&& 0xF0) == AnalogMessage

/-- `AnalogValue` from `reply.go`: errors unless the value is analog, else
returns `(pin, value)` where the pin is looked up from the channel
(`valueType & ^AnalogMessage`, i.e. the complement mask on a byte). -/
def FirmataValue.AnalogValue (v : FirmataValue) :
    Except String (Nat × Nat) :=
  if !v.IsAnalog then
    .error "cannot get analog value for digital pin"
  else
    .ok (v.analogChannelPinsMap (v.valueType &&& (0xFF ^^^ AnalogMessage)), v.value)

/-- `DigitalValue` from `reply.go`: errors if the value is analog, else
returns the port (`valueType & ^DigitalMessage`) and the 8 decoded pin bits
`val[port*8+i] = (value & (1<<i)) > 0`. -/
def FirmataValue.DigitalValue (v : FirmataValue) :
    Except String (Nat × List (Nat × Bool)) :=
  if v.IsAnalog then
    .error "Cannot get digital value for analog pin"
  else
    let port := v.valueType &&& (0xFF ^^^ DigitalMessage)
    .ok (port, (List.range 8).map (fun i => (port * 8 + i, (v.value &&& (1 <<< i)) > 0)))

/-- Whether an `Except` computation succeeded. -/
def exceptOk {ε α : Type} : Except ε α → Bool
  | .ok _ => true
  | .error _ => false

/-! ### Client pin-control operations (`client.go`) -/

/-- Pin mode `Output`.  The `PinMode` constants file is not among the given
sources; modelled from the spec's mode list with the standard Firmata value. -/
def Output : Nat := 1

/-- How a pin-control call in `client.go` finishes: a normal return, a
returned validation error, or a Go runtime panic (index out of range). -/
inductive GoOutcome where
  | ok : GoOutcome
  | err : GoOutcome
  | panicked : GoOutcome
  deriving Repr, DecidableEq

/-- The `FirmataClient` fields the pin-control operations touch:
`pinModes` (per-pin set of supported modes; a Go
`[]map[PinMode]interface{}` whose lookups are nil exactly for absent
modes, since the capability decoder stores non-nil resolutions) and
`digitalPinState` (the `[8]byte` port-state array). -/
structure ClientState where
  pinModes : List (List Nat)
  digitalPinState : List Nat
  deriving Repr, DecidableEq

/-- Result of one pin-control call: how it finished, the exact bytes it
wrote to the transport, and the client state afterwards. -/
structure CallResult where
  outcome : GoOutcome
  sent : List Nat
  state : ClientState
  deriving Repr, DecidableEq

/-- `SetPinMode` from `client.go`:

    if c.pinModes[pin][mode] == nil { return error }
    cmd := []byte{byte(SetPinMode), (pin & 0x7F), byte(mode)}
    return c.sendCommand(cmd)

The slice index `c.pinModes[pin]` happens before any range check on `pin`,
so an out-of-range pin is a runtime panic, not an error return. -/
def SetPinMode (c : ClientState) (pin mode : Nat) : CallResult :=
  match c.pinModes[pin]? with
  | none => ⟨.panicked, [], c⟩
  | some modes =>
    if modes.contains mode then
      ⟨.ok, [SetPinModeCmd, pin &&& 0x7F, mode], c⟩
    else
      ⟨.err, [], c⟩

/-- `EnableDigitalInput` from `client.go`:

    if pin < 0 || pin > uint(len(c.pinModes)) { return error }
    port := (pin / 8) & 0x7F
    ...send [EnableDigitalInput | port, 0x01 or 0x00]

`pin` is unsigned so `pin < 0` is always false; note the guard uses `>`
(strict), so `pin == len(c.pinModes)` passes it. -/
def EnableDigitalInput (c : ClientState) (pin : Nat) (val : Bool) : CallResult :=
  if pin > c.pinModes.length then
    ⟨.err, [], c⟩
  else
    let port := (pin / 8) &&& 0x7F
    ⟨.ok, [EnableDigitalInputCmd ||| port, if val then 1 else 0], c⟩

/-- Body of `DigitalWrite` after its guard: read-modify-write one bit of
`digitalPinState[pin/8]` and send the re-encoded port byte.  Go's byte
complement `^(1 << pin)` is `0xFF ^^^ (1 <<< (pin % 8))`; indexing the
`[8]byte` array out of range is a runtime panic. -/
def digitalWriteBody (c : ClientState) (pin : Nat) (val : Bool) : CallResult :=
  let port := (pin / 8) &&& 0x7F
  match c.digitalPinState[port]? with
  | none => ⟨.panicked, [], c⟩
  | some old =>
    let k := pin % 8
    let new := if val then old ||| (1 <<< k) else old &&& (0xFF ^^^ (1 <<< k))
    let data := to7Bit new
    ⟨.ok, [DigitalMessage ||| port, data[0]!, data[1]!],
      { c with digitalPinState := c.digitalPinState.set port new }⟩

/-- `DigitalWrite` from `client.go`:

    if pin < 0 || pin > uint8(len(c.pinModes)) && c.pinModes[pin][Output] != nil {
        return error
    }
    ...read-modify-write digitalPinState[pin/8], send the port

Go operator precedence parses the guard as
`pin < 0 || (pin > uint8(len) && c.pinModes[pin][Output] != nil)`, and
`pin < 0` is always false for a `uint8`; so whenever `pin > len(pinModes)`
(truncated to a byte) the guard itself indexes `pinModes[pin]` out of
range and panics, and `pin == len(pinModes)` skips the guard entirely and
falls through to the write. -/
def DigitalWrite (c : ClientState) (pin : Nat) (val : Bool) : CallResult :=
  if pin > c.pinModes.length % 256 then
    match c.pinModes[pin]? with
    | none => ⟨.panicked, [], c⟩
    | some modes =>
      if modes.contains Output then
        ⟨.err, [], c⟩
      else
        digitalWriteBody c pin val
  else
    digitalWriteBody c pin val

/-! ### Frame reader (`reply.go` `replyReader`)

The reader goroutine is embedded as a deterministic interpreter over the
list of bytes delivered by the transport.  `readerStep` processes one
command byte exactly as the body of the `for` loop does; `replyReaderRun`
iterates it over the stream.  Running out of input models the blocking
reads; a Go panic (closing the already-closed `done` channel) kills the
goroutine, which the interpreter models by stopping with `crashed` set. -/

/-- State owned by the reader: the sync flag (`var init bool`), the fields
of `FirmataClient` it writes, and the observable effects — values emitted
on `valueChan`, the number of `close(done)` calls attempted, whether
`done` is already closed, and whether the goroutine has panicked. -/
structure ReaderState where
  init : Bool
  protocolVersion : List Nat
  capabilityDone : Bool
  analogMappingDone : Bool
  pinModesTable : List (List Nat)
  analogChannelPins : List (Nat × Nat)
  firmwareVersion : List Nat
  firmwareName : List Nat
  doneClosed : Bool
  closeAttempts : Nat
  crashed : Bool
  emitted : List (Nat × Nat)
  deriving Repr, DecidableEq

/-- The reader's state at client construction: everything empty/unset. -/
def initialReaderState : ReaderState :=
  ⟨false, [], false, false, [], [], [], [], false, 0, false, []⟩

/-- The modes listed in one capability record: the (mode, resolution)
pairs' first components. -/
def recordModes : List Nat → List Nat
  | mode :: _res :: rest => mode :: recordModes rest
  | [mode] => [mode]
  | [] => []

/-- Modelled from the spec (§4.2): decode the 14-bit-packed string of a
firmware-name response, one character per byte pair, via the codec. -/
def decode7BitPairs : List Nat → List Nat
  | b0 :: b1 :: rest => from7Bit b0 b1 :: decode7BitPairs rest
  | _ => []

/-- Modelled from the spec (§4.2): the analog-mapping payload is one byte
per pin, `0x7F` meaning "not an analog pin", otherwise the channel number;
collect the (pin, channel) pairs. -/
def analogMappingPairs (payload : List Nat) : List (Nat × Nat) :=
  (payload.enum.filter (fun x => x.2 ≠ 0x7F)).map (fun x => (x.1, x.2))

/-- Modelled from the spec (§4.2): the sysex decoder `parseSysEx`, whose
defining file is not among the given sources.  The first byte is the
sub-command: a capability response builds the per-pin mode table (records
terminated by `0x7F`) and sets capability-received; an analog-mapping
response builds the channel mapping and sets analog-mapping-received; a
firmware response stores the two version bytes and the 14-bit-packed name;
unknown sub-commands (and an empty message) are ignored. -/
def parseSysEx (s : ReaderState) (data : List Nat) : ReaderState :=
  match data with
  | [] => s
  | sub :: payload =>
    if sub = CapabilityResponse then
      { s with capabilityDone := true,
               pinModesTable := ((payload.splitOn 0x7F).dropLast).map recordModes }
    else if sub = AnalogMappingResponse then
      { s with analogMappingDone := true,
               analogChannelPins := analogMappingPairs payload }
    else if sub = FirmwareQueryResponse then
      { s with firmwareVersion := payload.take 2,
               firmwareName := decode7BitPairs (payload.drop 2) }
    else
      s

/-- `bufio.Reader.ReadSlice(delim)` over the remaining stream: the bytes
up to and including the first sentinel, and the rest; `none` when the
sentinel is not in the delivered bytes (the read blocks). -/
def readSlice (sentinel : Nat) (l : List Nat) : Option (List Nat × List Nat) :=
  if sentinel ∈ l then
    some (l.takeWhile (· ≠ sentinel) ++ [sentinel], (l.dropWhile (· ≠ sentinel)).tail)
  else
    none

/-- One iteration of the `replyReader` loop body on command byte `b` with
`rest` still to come.  Returns the new state and `some rest2` to continue
the loop, or `none` when the reader stops (blocked on a read past the end
of the delivered bytes, or dead from the double-close panic).

Mirrors `reply.go`: before sync (`!init`) every byte other than
report-version is discarded; report-version reads 2 version bytes;
start-sysex reads through the end-sysex sentinel, strips it, runs the
sysex decoder, and calls `close(done)` whenever both handshake flags are
set afterwards — a second such call is a Go "close of closed channel"
panic; a byte matching `(cmd & DigitalMessage) > 0 || (cmd & AnalogMessage) > 0`
reads 2 data bytes and emits a decoded value; anything else is a no-op. -/
def readerStep (s : ReaderState) (b : Nat) (rest : List Nat) :
    ReaderState × Option (List Nat) :=
  if s.init = false ∧ b ≠ ReportVersion then
    (s, some rest)
  else
    let s1 := { s with init := true }
    if b = ReportVersion then
      match rest with
      | v1 :: v2 :: rest2 => ({ s1 with protocolVersion := [v1, v2] }, some rest2)
      | _ => (s1, none)
    else if b = StartSysEx then
      match readSlice EndSysEx rest with
      | some (data, rest2) =>
        let s2 := parseSysEx s1 data.dropLast
        if s2.analogMappingDone ∧ s2.capabilityDone then
          if s2.doneClosed then
            ({ s2 with closeAttempts := s2.closeAttempts + 1, crashed := true }, none)
          else
            ({ s2 with closeAttempts := s2.closeAttempts + 1, doneClosed := true }, some rest2)
        else
          (s2, some rest2)
      | none => (s1, none)
    else if (b &&& DigitalMessage) > 0 ∨ (b &&& AnalogMessage) > 0 then
      match rest with
      | b1 :: b2 :: rest2 =>
        ({ s1 with emitted := s1.emitted ++ [(b, from7Bit b1 b2)] }, some rest2)
      | _ => (s1, none)
    else
      (s1, some rest)

/-- Iterate `readerStep` over the delivered bytes.  Each step consumes at
least the command byte, so fuel equal to the stream length (supplied by
`replyReaderRun`) never runs out. -/
def replyReaderGo : Nat → ReaderState → List Nat → ReaderState
  | 0, s, _ => s
  | _ + 1, s, [] => s
  | fuel + 1, s, b :: rest =>
    match readerStep s b rest with
    | (s2, none) => s2
    | (s2, some rest2) => replyReaderGo fuel s2 rest2

/-- The reader's state after consuming the delivered byte stream `l`. -/
def replyReaderRun (s : ReaderState) (l : List Nat) : ReaderState :=
  replyReaderGo l.length s l

/-! ### Connect retry loop (`client.go` `NewClient`)

    for {
        select {
        case <-done: return client, err
        case <-time.After(time.Second * 15): conn.Write(SystemReset)
        case <-time.After(time.Second * 30): conn.Close(); return nil, timeout
        }
    }

Both `time.After` channels are created afresh on every iteration of the
`for` loop, so at an iteration starting at absolute time `t` the short
case becomes ready at `t + 15` and the long case at `t + 30`; `select`
fires the first case to become ready. -/

/-- The case a `NewClient` select iteration fires. -/
inductive SelectCase where
  | gotDone : SelectCase
  | shortTimer : SelectCase
  | longTimer : SelectCase
  deriving Repr, DecidableEq

/-- Which case of the select fires for an iteration starting at time `t`,
when the handshake-complete channel is closed at time `doneAt` (`none`
means the signal never arrives): the earliest-ready channel wins, the
done channel winning ties. -/
def newClientSelect (t : Nat) (doneAt : Option Nat) : SelectCase :=
  match doneAt with
  | some d =>
    if d ≤ t + 15 ∧ d ≤ t + 30 then .gotDone
    else if t + 15 ≤ t + 30 then .shortTimer
    else .longTimer
  | none =>
    if t + 15 ≤ t + 30 then .shortTimer
    else .longTimer

/-- How an observation of the `NewClient` loop ends. -/
inductive ConnectResult where
  | connected : ConnectResult
  | timedOut : ConnectResult
  | stillWaiting : ConnectResult
  deriving Repr, DecidableEq

/-- The `NewClient` retry loop observed for `n` iterations from time `t`:
the done case returns the client, the short-timer case resends
system-reset and loops, the long-timer case closes the transport and
returns the timeout error; `stillWaiting` means the loop is still running
after `n` iterations. -/
def newClientLoop : Nat → Nat → Option Nat → ConnectResult
  | 0, _, _ => .stillWaiting
  | n + 1, t, doneAt =>
    match newClientSelect t doneAt with
    | .gotDone => .connected
    | .shortTimer => newClientLoop n (t + 15) doneAt
    | .longTimer => .timedOut

end Firmata

namespace Firmata

/-! ### Claim C5 and C9 theorems -/

set_option maxRecDepth 4096 in
/-- The codec round-trip checked over every byte value. -/
theorem codec_roundtrip_fin :
    ∀ v : Fin 256, from7Bit (to7Bit v.val)[0]! (to7Bit v.val)[1]! = v.val := by
  decide

/-- C5: the bit-packing codec round-trips: for every `v` in 0..255,
`from7Bit` applied to the two bytes produced by `to7Bit v` returns `v`,
where `to7Bit` yields `[v &&& 0x7F, v >>> 7]` and
`from7Bit l m = l ||| (m <<< 7)`. -/
theorem c5_codec_roundtrip (v : Nat) (h : v < 256) :
    from7Bit (to7Bit v)[0]! (to7Bit v)[1]! = v ∧
      (to7Bit v)[0]! = v &&& 0x7F ∧ (to7Bit v)[1]! = (v >>> 7) &&& 0x7F :=
  ⟨codec_roundtrip_fin ⟨v, h⟩, rfl, rfl⟩

/-- Witness for C5 at `v = 200`. -/
theorem c5_codec_roundtrip_witness :
    from7Bit (to7Bit 200)[0]! (to7Bit 200)[1]! = 200 :=
  (c5_codec_roundtrip 200 (by norm_num)).1

/-- C9: for every decoded value, exactly one of the two accessors succeeds,
determined by the originating command family: `AnalogValue` errors whenever
`IsAnalog` is false, `DigitalValue` errors whenever `IsAnalog` is true, and
both are total functions (no panic / undefined behavior). -/
theorem c9_accessor_exclusivity (v : FirmataValue) :
    (exceptOk v.AnalogValue = v.IsAnalog) ∧
      (exceptOk v.DigitalValue = !v.IsAnalog) := by
  constructor
  · cases h : v.IsAnalog <;> simp [FirmataValue.AnalogValue, h, exceptOk]
  · cases h : v.IsAnalog <;> simp [FirmataValue.DigitalValue, h, exceptOk]

/-! ### Claims C3, C10 (SetPinMode), C4 (guards), C6 (bit isolation) -/

/-- C3: with the capability table populated, `SetPinMode p m` for an
in-range pin sends exactly the 3-byte set-pin-mode command when mode `m`
is in pin `p`'s capability record, and returns a validation error having
written no bytes at all when it is not. -/
theorem c3_setPinMode_capability (c : ClientState) (p m : Nat)
    (hp : p < c.pinModes.length) :
    ((c.pinModes.get ⟨p, hp⟩).contains m = true →
      SetPinMode c p m = ⟨.ok, [SetPinModeCmd, p &&& 0x7F, m], c⟩) ∧
    ((c.pinModes.get ⟨p, hp⟩).contains m = false →
      SetPinMode c p m = ⟨.err, [], c⟩) := by
  have hsome : c.pinModes[p]? = some (c.pinModes.get ⟨p, hp⟩) :=
    List.getElem?_eq_getElem hp
  constructor
  · intro hm
    have hmem : m ∈ c.pinModes[p] := List.mem_of_elem_eq_true hm
    simp [SetPinMode, hsome, hmem]
  · intro hm
    have hmem : m ∉ c.pinModes[p] := by
      intro hx
      have htrue : (c.pinModes.get ⟨p, hp⟩).contains m = true :=
        List.elem_eq_true_of_mem (by simpa using hx)
      rw [hm] at htrue
      cases htrue
    simp [SetPinMode, hsome, hmem]

/-- Witness for C3: a table where pin 0 supports only mode 1; mode 1 is
sent as a 3-byte command, mode 2 is rejected with nothing written. -/
theorem c3_setPinMode_capability_witness :
    SetPinMode ⟨[[1]], List.replicate 8 0⟩ 0 1 =
        ⟨.ok, [0xF4, 0, 1], ⟨[[1]], List.replicate 8 0⟩⟩ ∧
      SetPinMode ⟨[[1]], List.replicate 8 0⟩ 0 2 =
        ⟨.err, [], ⟨[[1]], List.replicate 8 0⟩⟩ :=
  ⟨(c3_setPinMode_capability ⟨[[1]], List.replicate 8 0⟩ 0 1 (by decide)).1 (by decide),
   (c3_setPinMode_capability ⟨[[1]], List.replicate 8 0⟩ 0 2 (by decide)).2 (by decide)⟩

/-- C10: for every pin at or beyond the capability table's length,
`SetPinMode` panics (Go index out of range) instead of returning a
validation error, because its guard indexes `pinModes[pin]` before any
range check on the pin. -/
theorem c10_setPinMode_out_of_range_panics (c : ClientState) (p m : Nat)
    (hp : c.pinModes.length ≤ p) :
    SetPinMode c p m = ⟨.panicked, [], c⟩ := by
  have hnone : c.pinModes[p]? = none := by
    simpa using List.getElem?_eq_none hp
  simp [SetPinMode, hnone]

/-- Witness for C10: a 1-entry table, pin 1. -/
theorem c10_setPinMode_out_of_range_panics_witness :
    SetPinMode ⟨[[1]], List.replicate 8 0⟩ 1 1 =
      ⟨.panicked, [], ⟨[[1]], List.replicate 8 0⟩⟩ :=
  c10_setPinMode_out_of_range_panics ⟨[[1]], List.replicate 8 0⟩ 1 1 (by decide)

/-- C4 failing inputs: with a 2-pin capability table, the out-of-range pin
2 (= number of pins) makes `EnableDigitalInput` send the enable command
instead of returning a validation error (its guard uses `>` rather than
`>=`), and makes `DigitalWrite` fall through its guard and send the port
write; the out-of-range pin 3 makes `DigitalWrite` panic while evaluating
its own guard.  The claim that every out-of-range pin gets a synchronous
validation error with nothing sent fails on the code. -/
theorem c4_out_of_range_guards_fail :
    (EnableDigitalInput ⟨[[1], [1]], List.replicate 8 0⟩ 2 true).outcome = .ok ∧
    (EnableDigitalInput ⟨[[1], [1]], List.replicate 8 0⟩ 2 true).sent = [0xD0, 0x01] ∧
    (DigitalWrite ⟨[[1], [1]], List.replicate 8 0⟩ 2 true).outcome = .ok ∧
    (DigitalWrite ⟨[[1], [1]], List.replicate 8 0⟩ 3 true).outcome = .panicked ∧
    (DigitalWrite ⟨[[1], [1]], List.replicate 8 0⟩ 3 true).sent = [] := by
  refine ⟨rfl, rfl, rfl, rfl, rfl⟩

set_option maxRecDepth 8192 in
/-- Setting then clearing one bit position of a byte touches no other bit
position below 8, checked over every byte and pair of positions. -/
theorem bit_isolation_fin :
    ∀ d : Fin 256, ∀ k i : Fin 8,
      (i.val ≠ k.val →
        ((d.val ||| (1 <<< k.val)) &&& (0xFF ^^^ (1 <<< k.val))).testBit i.val
          = d.val.testBit i.val ∧
        (d.val ||| (1 <<< k.val)).testBit i.val = d.val.testBit i.val) ∧
      (d.val ||| (1 <<< k.val)).testBit k.val = true ∧
      ((d.val ||| (1 <<< k.val)) &&& (0xFF ^^^ (1 <<< k.val))).testBit k.val
        = false := by
  decide

/-- Masking with `0x7F` is the identity below 128. -/
theorem and_127_of_lt {a : Nat} (h : a < 128) : a &&& 127 = a := by
  have h2 : (127 : Nat) = 2 ^ 7 - 1 := by norm_num
  rw [h2, Nat.and_pow_two_sub_one_eq_mod, Nat.mod_eq_of_lt h]

/-- C6: `DigitalWrite` is bit-isolating on the owned port state: for any
in-range pin `p` and any prior port byte, writing `true` then `false` to
pin `p` leaves every other bit position of port byte `p / 8` exactly as it
was, and bit `p % 8` is set by the first write and cleared by the
second. -/
theorem c6_digitalWrite_bit_isolation (c : ClientState) (p : Nat)
    (hlen : c.pinModes.length < 256) (hp : p < c.pinModes.length)
    (hp64 : p < 64) (hd : c.digitalPinState.length = 8)
    (hb : ∀ b ∈ c.digitalPinState, b < 256) :
    (DigitalWrite c p true).outcome = .ok ∧
    (DigitalWrite (DigitalWrite c p true).state p false).outcome = .ok ∧
    (∀ i : Nat, i < 8 → i ≠ p % 8 →
      ((DigitalWrite (DigitalWrite c p true).state p false).state.digitalPinState[p / 8]!).testBit i
          = (c.digitalPinState[p / 8]!).testBit i ∧
      ((DigitalWrite c p true).state.digitalPinState[p / 8]!).testBit i
          = (c.digitalPinState[p / 8]!).testBit i) ∧
    ((DigitalWrite c p true).state.digitalPinState[p / 8]!).testBit (p % 8) = true ∧
    ((DigitalWrite (DigitalWrite c p true).state p false).state.digitalPinState[p / 8]!).testBit (p % 8) = false := by
  have hmod : c.pinModes.length % 256 = c.pinModes.length := Nat.mod_eq_of_lt hlen
  have hdiv : p / 8 < 8 := by omega
  have hport : (p / 8) &&& 0x7F = p / 8 := and_127_of_lt (by omega)
  have hidx : p / 8 < c.digitalPinState.length := by omega
  have hold : c.digitalPinState[p / 8]? = some c.digitalPinState[p / 8] :=
    List.getElem?_eq_getElem hidx
  have hd0 : c.digitalPinState[p / 8] < 256 := hb _ (List.getElem_mem hidx)
  set d0 := c.digitalPinState[p / 8] with hd0def
  set k := p % 8 with hkdef
  have hk : k < 8 := Nat.mod_lt _ (by norm_num)
  have hr1 : DigitalWrite c p true =
      ⟨.ok, [DigitalMessage ||| p / 8, (d0 ||| (1 <<< k)) &&& 0x7F,
             ((d0 ||| (1 <<< k)) >>> 7) &&& 0x7F],
        { c with digitalPinState := c.digitalPinState.set (p / 8) (d0 ||| (1 <<< k)) }⟩ := by
    rw [DigitalWrite, if_neg (by omega)]
    rw [digitalWriteBody]
    simp only [hport, hold, to7Bit]
    rfl
  have hold1 : (c.digitalPinState.set (p / 8) (d0 ||| (1 <<< k)))[p / 8]? =
      some (d0 ||| (1 <<< k)) := by
    rw [List.getElem?_set_self]
    exact hidx
  have hr2 : DigitalWrite (DigitalWrite c p true).state p false =
      ⟨.ok, [DigitalMessage ||| p / 8,
             ((d0 ||| (1 <<< k)) &&& (0xFF ^^^ (1 <<< k))) &&& 0x7F,
             (((d0 ||| (1 <<< k)) &&& (0xFF ^^^ (1 <<< k))) >>> 7) &&& 0x7F],
        { c with digitalPinState := c.digitalPinState.set (p / 8) ((d0 ||| (1 <<< k)) &&& (0xFF ^^^ (1 <<< k))) }⟩ := by
    rw [hr1]
    dsimp only
    rw [DigitalWrite]
    rw [if_neg (show ¬ p > c.pinModes.length % 256 by omega)]
    rw [digitalWriteBody]
    simp only [hport, hold1, to7Bit]
    simp [List.set_set]
  have hget1 : (DigitalWrite c p true).state.digitalPinState[p / 8]! =
      d0 ||| (1 <<< k) := by
    rw [hr1]
    rw [getElem!_pos _ _ (by simpa using hidx)]
    rw [List.getElem_set_self]
  have hget2 : (DigitalWrite (DigitalWrite c p true).state p false).state.digitalPinState[p / 8]! =
      (d0 ||| (1 <<< k)) &&& (0xFF ^^^ (1 <<< k)) := by
    rw [hr2]
    rw [getElem!_pos _ _ (by simpa using hidx)]
    rw [List.getElem_set_self]
  have hget0 : c.digitalPinState[p / 8]! = d0 :=
    getElem!_pos c.digitalPinState (p / 8) hidx
  refine ⟨by rw [hr1], by rw [hr2], ?_, ?_, ?_⟩
  · intro i hi hne
    have h := bit_isolation_fin ⟨d0, hd0⟩ ⟨k, hk⟩ ⟨i, hi⟩
    rw [hget1, hget2, hget0]
    exact ⟨(h.1 hne).1, (h.1 hne).2⟩
  · rw [hget1]
    exact (bit_isolation_fin ⟨d0, hd0⟩ ⟨k, hk⟩ ⟨0, by norm_num⟩).2.1
  · rw [hget2]
    exact (bit_isolation_fin ⟨d0, hd0⟩ ⟨k, hk⟩ ⟨0, by norm_num⟩).2.2

/-- Witness for C6: pins 0..15 all supporting output, pin 10 with prior
port byte `0xAD` on port 1: bit 0 of port byte 1 survives the set/clear
pair. -/
theorem c6_digitalWrite_bit_isolation_witness :
    ((DigitalWrite ⟨List.replicate 16 [1], [0, 0xAD, 0, 0, 0, 0, 0, 0]⟩ 10 true).state.digitalPinState[10 / 8]!).testBit 0 = true ∧
    ((DigitalWrite (DigitalWrite ⟨List.replicate 16 [1], [0, 0xAD, 0, 0, 0, 0, 0, 0]⟩ 10 true).state 10 false).state.digitalPinState[10 / 8]!).testBit 0 = true := by
  have h := c6_digitalWrite_bit_isolation
    ⟨List.replicate 16 [1], [0, 0xAD, 0, 0, 0, 0, 0, 0]⟩ 10
    (by decide) (by decide) (by decide) (by decide) (by decide)
  have h0 := h.2.2.1 0 (by decide) (by decide)
  refine ⟨?_, ?_⟩
  · rw [h0.2]
    decide
  · rw [h0.1]
    decide

/-! ### Frame reader lemmas and claims C1, C7, C8 -/

/-- `dropWhile` never lengthens a list. -/
theorem length_dropWhile_le (p : Nat → Bool) (l : List Nat) :
    (l.dropWhile p).length ≤ l.length := by
  induction l with
  | nil => simp [List.dropWhile]
  | cons a l ih =>
    rw [List.dropWhile_cons]
    split
    · simp
      omega
    · simp

/-- A successful `readSlice` leaves no more bytes than it was given. -/
theorem readSlice_rest_length {sentinel : Nat} {l data rest : List Nat}
    (h : readSlice sentinel l = some (data, rest)) : rest.length ≤ l.length := by
  unfold readSlice at h
  split at h
  · cases h
    have h1 := length_dropWhile_le (· ≠ sentinel) l
    have h2 : ((l.dropWhile (· ≠ sentinel)).tail).length =
        (l.dropWhile (· ≠ sentinel)).length - 1 := by
      simp [List.length_tail]
    omega
  · cases h

/-- A continuing reader step leaves no more bytes than followed the
command byte. -/
theorem readerStep_rest_length {s : ReaderState} {b : Nat} {rest rest2 : List Nat}
    {s2 : ReaderState} (h : readerStep s b rest = (s2, some rest2)) :
    rest2.length ≤ rest.length := by
  unfold readerStep at h
  split at h
  · cases h
    exact Nat.le_refl _
  · split at h
    · split at h <;> cases h
      simp only [List.length_cons]
      omega
    · split at h
      · split at h
        · dsimp only at h
          split at h
          · split at h
            · cases h
            · cases h
              exact readSlice_rest_length (by assumption)
          · cases h
            exact readSlice_rest_length (by assumption)
        · cases h
      · split at h
        · split at h <;> cases h
          simp only [List.length_cons]
          omega
        · cases h
          exact Nat.le_refl _

/-- Any fuel at least the stream length drives `replyReaderGo` to the same
state: the fuel is an artifact of the embedding, not of the program. -/
theorem replyReaderGo_eq_of_le :
    ∀ (f g : Nat) (s : ReaderState) (l : List Nat),
      l.length ≤ f → l.length ≤ g → replyReaderGo f s l = replyReaderGo g s l := by
  intro f
  induction f with
  | zero =>
    intro g s l hf hg
    have hl : l = [] := List.eq_nil_of_length_eq_zero (by omega)
    subst hl
    cases g <;> rfl
  | succ f ih =>
    intro g s l hf hg
    cases l with
    | nil => cases g <;> rfl
    | cons b rest =>
      cases g with
      | zero => simp at hg
      | succ g2 =>
        simp only [replyReaderGo]
        rcases hstep : readerStep s b rest with ⟨s2, o⟩
        cases o with
        | none => rfl
        | some rest2 =>
          have hlen := readerStep_rest_length hstep
          simp only [List.length_cons] at hf hg
          exact ih g2 s2 rest2 (by omega) (by omega)

/-- Unfold one continuing iteration of the reader. -/
theorem replyReaderRun_cons {s s2 : ReaderState} {b : Nat} {rest rest2 : List Nat}
    (hstep : readerStep s b rest = (s2, some rest2)) :
    replyReaderRun s (b :: rest) = replyReaderRun s2 rest2 := by
  show replyReaderGo ((b :: rest).length) s (b :: rest) = replyReaderRun s2 rest2
  rw [List.length_cons]
  rw [show replyReaderGo (rest.length + 1) s (b :: rest) =
        (match readerStep s b rest with
         | (s3, none) => s3
         | (s3, some rest3) => replyReaderGo rest.length s3 rest3) from rfl]
  rw [hstep]
  exact replyReaderGo_eq_of_le _ _ _ _ (readerStep_rest_length hstep) (Nat.le_refl _)

/-- The sysex decoder never touches the sync flag. -/
theorem parseSysEx_init (s : ReaderState) (d : List Nat) :
    (parseSysEx s d).init = s.init := by
  unfold parseSysEx
  split
  · rfl
  · split
    · rfl
    · split
      · rfl
      · split <;> rfl

/-- One reader step never clears the sync flag. -/
theorem readerStep_init {s : ReaderState} (b : Nat) (rest : List Nat)
    (h : s.init = true) : (readerStep s b rest).1.init = true := by
  unfold readerStep
  split
  · exact h
  · dsimp only
    split
    · split <;> rfl
    · split
      · split
        · split
          · split <;> simp [parseSysEx_init]
          · simp [parseSysEx_init]
        · rfl
      · split
        · split <;> rfl
        · rfl

/-- The reader never clears the sync flag over any stream. -/
theorem replyReaderGo_init :
    ∀ (f : Nat) (s : ReaderState) (l : List Nat), s.init = true →
      (replyReaderGo f s l).init = true := by
  intro f
  induction f with
  | zero =>
    intro s l h
    exact h
  | succ f ih =>
    intro s l h
    cases l with
    | nil => exact h
    | cons b rest =>
      simp only [replyReaderGo]
      rcases hstep : readerStep s b rest with ⟨s2, o⟩
      have h2 : s2.init = true := by
        have hh := readerStep_init (s := s) b rest h
        rw [hstep] at hh
        exact hh
      cases o with
      | none => exact h2
      | some rest2 => exact ih s2 rest2 h2

/-- Re-setting an already-set sync flag is the identity on the state. -/
theorem readerState_eta (s : ReaderState) (h : s.init = true) :
    { s with init := true } = s := by
  cases s
  simp_all

/-- C8: the reader's sync state machine.  (1) While un-synced, every byte
before a report-version command byte is discarded with no other effect;
(2) a report-version byte (whether the first or a later resend) consumes
exactly the 2 following bytes as the protocol version and leaves the
reader synced; (3) once synced, the reader never becomes un-synced again
on any continuation of the stream. -/
theorem c8_sync_state_machine :
    (∀ (s : ReaderState) (junk l : List Nat),
       s.init = false → (∀ b ∈ junk, b ≠ ReportVersion) →
       replyReaderRun s (junk ++ l) = replyReaderRun s l) ∧
    (∀ (s : ReaderState) (v1 v2 : Nat) (rest : List Nat),
       replyReaderRun s (ReportVersion :: v1 :: v2 :: rest) =
         replyReaderRun { s with init := true, protocolVersion := [v1, v2] } rest) ∧
    (∀ (s : ReaderState) (l : List Nat),
       s.init = true → (replyReaderRun s l).init = true) := by
  refine ⟨?_, ?_, ?_⟩
  · intro s junk l hinit hjunk
    induction junk with
    | nil => rfl
    | cons b junk ih =>
      have hb : b ≠ ReportVersion := hjunk b (by simp)
      have hstep : readerStep s b (junk ++ l) = (s, some (junk ++ l)) := by
        unfold readerStep
        rw [if_pos ⟨hinit, hb⟩]
      rw [List.cons_append, replyReaderRun_cons hstep]
      exact ih (fun x hx => hjunk x (by simp [hx]))
  · intro s v1 v2 rest
    have hstep : readerStep s ReportVersion (v1 :: v2 :: rest) =
        ({ s with init := true, protocolVersion := [v1, v2] }, some rest) := by
      unfold readerStep
      rw [if_neg (by simp)]
      dsimp only
      rw [if_pos rfl]
    exact replyReaderRun_cons hstep
  · intro s l h
    exact replyReaderGo_init _ _ _ h

/-- Witness for C8: two junk bytes are discarded, then report-version with
version bytes `2, 3` syncs the reader. -/
theorem c8_sync_state_machine_witness :
    replyReaderRun initialReaderState ([5, 6] ++ [0xF9, 2, 3]) =
      replyReaderRun { initialReaderState with init := true, protocolVersion := [2, 3] } [] := by
  have h1 := c8_sync_state_machine.1 initialReaderState [5, 6] [0xF9, 2, 3] rfl (by decide)
  have h2 := c8_sync_state_machine.2.1 initialReaderState 2 3 []
  exact h1.trans h2

/-- C7 amended: in the synced state, a command byte other than
report-version and start-sysex is a no-op exactly when it shares no set
bits with either family selector (`b &&& 0x90 = 0` and `b &&& 0xE0 = 0`,
i.e. its high nibble is zero); a byte matching either mask — not only
bytes whose high nibble equals a family selector — is dispatched as a
fixed 3-byte message, consuming 2 more bytes and emitting a value. -/
theorem c7_command_dispatch_amended :
    ∀ (s : ReaderState) (b : Nat) (rest : List Nat),
      s.init = true → b ≠ ReportVersion → b ≠ StartSysEx →
      ((b &&& DigitalMessage = 0 ∧ b &&& AnalogMessage = 0 →
          replyReaderRun s (b :: rest) = replyReaderRun s rest) ∧
       ((b &&& DigitalMessage > 0 ∨ b &&& AnalogMessage > 0) →
          ∀ (b1 b2 : Nat) (rest2 : List Nat), rest = b1 :: b2 :: rest2 →
            replyReaderRun s (b :: rest) =
              replyReaderRun { s with emitted := s.emitted ++ [(b, from7Bit b1 b2)] } rest2)) := by
  intro s b rest hinit hRV hSys
  constructor
  · rintro ⟨h1, h2⟩
    have hstep : readerStep s b rest = (s, some rest) := by
      unfold readerStep
      rw [if_neg (by simp [hinit])]
      dsimp only
      rw [if_neg hRV, if_neg hSys, if_neg (by omega)]
      rw [readerState_eta s hinit]
    exact replyReaderRun_cons hstep
  · intro hmask b1 b2 rest2 hrest
    subst hrest
    have hstep : readerStep s b (b1 :: b2 :: rest2) =
        ({ s with emitted := s.emitted ++ [(b, from7Bit b1 b2)] }, some rest2) := by
      unfold readerStep
      rw [if_neg (by simp [hinit])]
      dsimp only
      rw [if_neg hRV, if_neg hSys, if_pos hmask]
      rw [hinit]
    exact replyReaderRun_cons hstep

/-- Witness for C7: byte `0x05` (no bits in either selector) is a no-op;
byte `0x95` (digital family) consumes 2 bytes and emits a value. -/
theorem c7_command_dispatch_witness :
    replyReaderRun { initialReaderState with init := true } [0x05, 0x95, 1, 1] =
      replyReaderRun { initialReaderState with init := true, emitted := [] ++ [(0x95, from7Bit 1 1)] } [] := by
  have h1 := (c7_command_dispatch_amended { initialReaderState with init := true }
      0x05 [0x95, 1, 1] rfl (by decide) (by decide)).1 (by decide)
  have h2 := (c7_command_dispatch_amended { initialReaderState with init := true }
      0x95 [1, 1] rfl (by decide) (by decide)).2 (by decide) 1 1 [] rfl
  exact h1.trans h2

/-- C7 counterexample: the byte `0x10` is not report-version, not
start-sysex, and its high nibble `0x1` equals neither family selector's
high nibble, so per the claim it should be a no-op (no bytes consumed, no
value emitted) — but the reader's mask test `0x10 &&& 0x90 > 0` treats it
as a message: it consumes the 2 following bytes and emits a value. -/
theorem c7_counterexample :
    (replyReaderRun initialReaderState [0xF9, 2, 3, 0x10, 0x01, 0x01]).emitted
      = [(0x10, 129)] := by
  decide

/-- C1 at concrete streams: on the spec's example stream (report-version,
capability response, analog-mapping response) `close(done)` is called
exactly once, and not before both responses have arrived; but on the same
stream followed by one more sysex message (a firmware response),
`close(done)` is attempted a second time — in Go a "close of closed
channel" panic that kills the reader — so the signal is not one-shot. -/
theorem c1_handshake_close_attempts :
    (replyReaderRun initialReaderState
        [0xF9, 2, 3, 0xF0, 0x6C, 0xF7, 0xF0, 0x6A, 0xF7]).closeAttempts = 1 ∧
    (replyReaderRun initialReaderState
        [0xF9, 2, 3, 0xF0, 0x6C, 0xF7, 0xF0, 0x6A, 0xF7]).crashed = false ∧
    (replyReaderRun initialReaderState [0xF9, 2, 3, 0xF0, 0x6C, 0xF7]).closeAttempts = 0 ∧
    (replyReaderRun initialReaderState
        [0xF9, 2, 3, 0xF0, 0x6C, 0xF7, 0xF0, 0x6A, 0xF7, 0xF0, 0x79, 2, 3, 0xF7]).closeAttempts = 2 ∧
    (replyReaderRun initialReaderState
        [0xF9, 2, 3, 0xF0, 0x6C, 0xF7, 0xF0, 0x6A, 0xF7, 0xF0, 0x79, 2, 3, 0xF7]).crashed = true := by
  decide

/-- C2: when the handshake-complete signal never arrives, the `NewClient`
retry loop never terminates: because both `time.After` timers are created
afresh on every iteration, the 15-second case is always the first to
become ready, so the loop resends system-reset forever and the 30-second
close-and-return-timeout case is unreachable — after any number of
iterations the loop is still running, never having returned the timeout
error. -/
theorem c2_connect_timeout_unreachable :
    ∀ (n t : Nat), newClientLoop n t none = ConnectResult.stillWaiting := by
  intro n
  induction n with
  | zero =>
    intro t
    rfl
  | succ n ih =>
    intro t
    have hsel : newClientSelect t none = SelectCase.shortTimer := by
      unfold newClientSelect
      rw [if_pos (by omega)]
    show (match newClientSelect t none with
          | SelectCase.gotDone => ConnectResult.connected
          | SelectCase.shortTimer => newClientLoop n (t + 15) none
          | SelectCase.longTimer => ConnectResult.timedOut) = ConnectResult.stillWaiting
    rw [hsel]
    exact ih (t + 15)

end Firmata
